import Mathlib

/-!
Shallow embedding of the session controller of src/App.tsx
(counter-timer: tap counting, stopwatch, rest countdown, rounds, summary).

Times are modelled in milliseconds as naturals; durations shown to the user
(elapsedMs, restMs, roundTimes entries) are integers, since JavaScript
computes them by subtraction of timestamps.  Each JavaScript setInterval is
modelled as an entry (id, kind) in the list of live intervals, and
tickerRef as the optional id it stores; clearInterval removes the entry
with that id.  The periodic callbacks are modelled as events that may fire
at any time at which their interval is live, with a monotone clock.
-/

set_option autoImplicit false
set_option maxRecDepth 8000
set_option linter.unnecessarySimpa false

namespace CounterTimer

/-- Phase = "count" | "ready" | "timing" | "rest" | "done" | "summary". -/
inductive Phase where
  | count | ready | timing | rest | done | summary
deriving DecidableEq, Repr

/-- Which periodic callback a live setInterval runs: the 50ms elapsed-time
updater of startMainTimer, or the 100ms rest countdown of stopMainStartRest. -/
inductive TickerKind where
  | main | rest
deriving DecidableEq, Repr

/-- GOAL = 40. -/
def GOAL : Nat := 40

/-- REST_MS = 15_000. -/
def REST_MS : Nat := 15000

/-- TOTAL_ROUNDS = 4. -/
def TOTAL_ROUNDS : Nat := 4

/-- The React state and refs of the App component: phase, count, elapsedMs,
restMs, round, roundTimes, startTimeRef, restEndRef, tickerRef; plus the
live setInterval entries, a fresh-id counter for them, and the number of
beepAndVibrate alerts emitted so far. -/
structure Session where
  phase : Phase
  round : Nat
  count : Nat
  elapsedMs : Int
  restMs : Int
  roundTimes : List Int
  startTime : Option Nat
  restEnd : Option Nat
  ticker : Option Nat
  intervals : List (Nat × TickerKind)
  nextId : Nat
  alerts : Nat
deriving DecidableEq, Repr

/-- The initial React state: phase "count", count 0, elapsedMs 0,
restMs REST_MS, round 1, roundTimes [], all refs null. -/
def initialSession : Session :=
  { phase := Phase.count, round := 1, count := 0, elapsedMs := 0,
    restMs := (REST_MS : Int), roundTimes := [], startTime := none,
    restEnd := none, ticker := none, intervals := [], nextId := 0,
    alerts := 0 }

/-- clearInterval(tickerRef.current) without nulling the ref, as in
startMainTimer. -/
def clearIntervalOnly (s : Session) : Session :=
  match s.ticker with
  | some j => { s with intervals := s.intervals.filter (fun p => p.1 ≠ j) }
  | none => s

/-- The idiom `if (tickerRef.current) { clearInterval(tickerRef.current);
tickerRef.current = null; }`. -/
def clearTicker (s : Session) : Session :=
  match s.ticker with
  | some j => { s with intervals := s.intervals.filter (fun p => p.1 ≠ j),
                       ticker := none }
  | none => s

/-- tickerRef.current = setInterval(cb, ms): a fresh interval goes live and
tickerRef stores its id. -/
def startInterval (k : TickerKind) (s : Session) : Session :=
  { s with intervals := s.intervals ++ [(s.nextId, k)],
           ticker := some s.nextId, nextId := s.nextId + 1 }

/-- handleTapToCount: a no-op unless phase is "count"; otherwise the count
becomes min(GOAL, count + 1), and when that reaches GOAL the app beeps and
moves to "ready". -/
def tapFn (s : Session) : Session :=
  if s.phase = Phase.count then
    let next := min GOAL (s.count + 1)
    if next = GOAL then
      { s with count := next, phase := Phase.ready, alerts := s.alerts + 1 }
    else
      { s with count := next }
  else s

/-- startMainTimer: a no-op unless phase is "ready"; otherwise clears any
stored interval, zeroes elapsedMs, records the start timestamp, moves to
"timing" and starts the 50ms elapsed-time interval. -/
def startFn (now : Nat) (s : Session) : Session :=
  if s.phase = Phase.ready then
    startInterval TickerKind.main
      { (clearIntervalOnly s) with elapsedMs := 0, startTime := some now,
                                   phase := Phase.timing }
  else s

/-- JavaScript assignment `arr[i] = v` on an array: it overwrites when i is
in range and otherwise extends the array up through index i (holes that
JavaScript would leave as undefined are modelled as 0; in reachable states
the assignment lands exactly at the end, so no hole ever arises). -/
def setIdx (l : List Int) (i : Nat) (v : Int) : List Int :=
  if i < l.length then l.set i v
  else l ++ List.replicate (i - l.length) 0 ++ [v]

/-- stopMainStartRest: a no-op unless phase is "timing"; otherwise clears the
main interval, freezes elapsedMs at now - startTime, writes
now - (startTime ?? 0) at index round - 1 of roundTimes, sets the rest
deadline now + REST_MS, resets restMs to REST_MS, moves to "rest" and starts
the 100ms countdown interval. -/
def stopFn (now : Nat) (s : Session) : Session :=
  if s.phase = Phase.timing then
    let s1 := clearTicker s
    let s2 := match s1.startTime with
      | some t0 => { s1 with elapsedMs := (now : Int) - (t0 : Int) }
      | none => s1
    let s3 := { s2 with
      roundTimes := setIdx s2.roundTimes (s2.round - 1)
        ((now : Int) - ((s2.startTime.getD 0 : Nat) : Int)) }
    startInterval TickerKind.rest
      { s3 with
        restEnd := some (now + REST_MS), restMs := (REST_MS : Int),
        phase := Phase.rest }
  else s

/-- nextRound: when round ≥ TOTAL_ROUNDS it only sets phase to "summary";
otherwise it clears any stored interval, nulls both timestamp refs, resets
count, elapsedMs and restMs, returns to "count" and sets round to
min(TOTAL_ROUNDS, round + 1).  Note the function itself has no phase guard:
the UI renders its button only in phase "done". -/
def nextRound (s : Session) : Session :=
  if TOTAL_ROUNDS ≤ s.round then { s with phase := Phase.summary }
  else
    { (clearTicker s) with
      startTime := none, restEnd := none, count := 0,
      elapsedMs := 0, restMs := (REST_MS : Int), phase := Phase.count,
      round := min TOTAL_ROUNDS (s.round + 1) }

/-- resetAll: clears any stored interval, nulls both timestamp refs, and
restores count 0, elapsedMs 0, restMs REST_MS, phase "count", round 1,
roundTimes []. -/
def resetAll (s : Session) : Session :=
  { (clearTicker s) with
    startTime := none, restEnd := none, count := 0,
    elapsedMs := 0, restMs := (REST_MS : Int), phase := Phase.count,
    round := 1, roundTimes := [] }

/-- The body of the 50ms interval of startMainTimer: when startTimeRef is
non-null, elapsedMs becomes now - startTime. -/
def mainTickBody (now : Nat) (s : Session) : Session :=
  match s.startTime with
  | some t0 => { s with elapsedMs := (now : Int) - (t0 : Int) }
  | none => s

/-- The body of the 100ms interval of stopMainStartRest: remaining is
max(0, (restEnd ?? 0) - now); restMs becomes remaining; when remaining ≤ 0
the stored interval is cleared, the app beeps and moves to "done". -/
def restTickBody (now : Nat) (s : Session) : Session :=
  let remaining : Int := max 0 (((s.restEnd.getD 0 : Nat) : Int) - (now : Int))
  let s1 := { s with restMs := remaining }
  if remaining ≤ 0 then
    let s2 := clearTicker s1
    { s2 with alerts := s2.alerts + 1, phase := Phase.done }
  else s1

/-- The kind of the live interval with a given id, if any. -/
def lookupKind (id : Nat) (s : Session) : Option TickerKind :=
  (s.intervals.find? (fun p => p.1 == id)).map (fun p => p.2)

/-- Firing the callback of the live interval with a given id; a dead id
fires nothing. -/
def fireFn (id : Nat) (now : Nat) (s : Session) : Session :=
  match lookupKind id s with
  | some TickerKind.main => mainTickBody now s
  | some TickerKind.rest => restTickBody now s
  | none => s

/-- The events that drive the controller: the four button handlers, the
reset button, and a tick of a live interval. -/
inductive Act where
  | tap | start | stop | advance | reset
  | fire (id : Nat)
deriving DecidableEq, Repr

/-- Whether the UI can deliver an event: tap, start and stop are
self-guarding handlers and reset buttons exist in every phase, so those are
always deliverable; the advance (nextRound) button is rendered only in
phase "done" (App.tsx lines 248-257); a tick fires only while its interval
is live. -/
def enabledB : Act → Session → Bool
  | Act.advance, s => decide (s.phase = Phase.done)
  | Act.fire id, s => (lookupKind id s).isSome
  | _, _ => true

/-- The effect of each event at the given current time. -/
def doAct : Act → Nat → Session → Session
  | Act.tap, _, s => tapFn s
  | Act.start, now, s => startFn now s
  | Act.stop, now, s => stopFn now s
  | Act.advance, _, s => nextRound s
  | Act.reset, _, s => resetAll s
  | Act.fire id, now, s => fireFn id now s

/-- Reach t s: the session can be in state s at time t, starting from the
initial state at time 0, by any sequence of deliverable events at
nondecreasing times. -/
inductive Reach : Nat → Session → Prop where
  | init : Reach 0 initialSession
  | step : ∀ {t : Nat} {s : Session} (a : Act) (t' : Nat),
      Reach t s → t ≤ t' → enabledB a s = true → Reach t' (doAct a t' s)

/-- Running a list of timed events in order. -/
def runActs (l : List (Act × Nat)) (s : Session) : Session :=
  l.foldl (fun s p => doAct p.1 p.2 s) s

/-- The time after running a list of timed events, starting at time t. -/
def endTime (t : Nat) (l : List (Act × Nat)) : Nat :=
  l.foldl (fun _ p => p.2) t

/-- Executable check that a list of timed events has nondecreasing times and
every event is deliverable when its turn comes. -/
def okRun : Nat → List (Act × Nat) → Session → Bool
  | _, [], _ => true
  | t, p :: l, s =>
      (decide (t ≤ p.2) && enabledB p.1 s) && okRun p.2 l (doAct p.1 p.2 s)

theorem reach_runActs (l : List (Act × Nat)) :
    ∀ (t : Nat) (s : Session), Reach t s → okRun t l s = true →
      Reach (endTime t l) (runActs l s) := by
  induction l with
  | nil => intro t s hr _; simpa [endTime, runActs] using hr
  | cons p l ih =>
      intro t s hr hok
      simp only [okRun, Bool.and_eq_true, decide_eq_true_eq] at hok
      exact ih p.2 (doAct p.1 p.2 s)
        (Reach.step p.1 p.2 hr hok.1.1 hok.1.2) hok.2

/-- One full round as the user drives it: GOAL taps, start and stop at time
t, the rest tick that ends the rest at t + REST_MS, and the advance press;
fid is the id the rest interval receives. -/
def demoCycle (t fid : Nat) : List (Act × Nat) :=
  List.replicate GOAL (Act.tap, t) ++
    [(Act.start, t), (Act.stop, t), (Act.fire fid, t + REST_MS),
     (Act.advance, t + REST_MS)]

/-- A full session up to the done state of the last round. -/
def demoPrefix : List (Act × Nat) :=
  demoCycle 0 1 ++ demoCycle REST_MS 3 ++ demoCycle (2 * REST_MS) 5 ++
    (List.replicate GOAL (Act.tap, 3 * REST_MS) ++
      [(Act.start, 3 * REST_MS), (Act.stop, 3 * REST_MS),
       (Act.fire 7, 4 * REST_MS)])

/-- A full session through to the summary screen. -/
def demoActs : List (Act × Nat) :=
  demoPrefix ++ [(Act.advance, 4 * REST_MS)]

/-- Every timestamp stored in startTimeRef was read from the clock no later
than the current time. -/
def startOK (t : Nat) (s : Session) : Prop :=
  match s.startTime with
  | some t0 => t0 ≤ t
  | none => True

/-- Coherence of phase, tickerRef and the live intervals: in "timing" the
single live interval is the main one and tickerRef stores it and a start
timestamp exists; in "rest" the single live interval is the countdown and a
rest deadline exists; in every other phase tickerRef is null and no
interval is live. -/
def phaseTickOK (s : Session) : Prop :=
  match s.phase, s.ticker with
  | Phase.timing, some j =>
      s.intervals = [(j, TickerKind.main)] ∧ s.startTime ≠ none
  | Phase.timing, none => False
  | Phase.rest, some j =>
      s.intervals = [(j, TickerKind.rest)] ∧ s.restEnd ≠ none
  | Phase.rest, none => False
  | _, some _ => False
  | _, none => s.intervals = []

/-- roundTimes holds one entry per completed round: round - 1 entries before
the round's stop (phases count, ready, timing) and round entries after it
(phases rest, done, summary). -/
def lenOK (s : Session) : Prop :=
  s.roundTimes.length =
    (match s.phase with
     | Phase.count => s.round - 1
     | Phase.ready => s.round - 1
     | Phase.timing => s.round - 1
     | _ => s.round)

/-- The reachable-state invariant at current time t. -/
def Inv (t : Nat) (s : Session) : Prop :=
  s.count ≤ GOAL ∧ 1 ≤ s.round ∧ s.round ≤ TOTAL_ROUNDS ∧
  startOK t s ∧ phaseTickOK s ∧ lenOK s ∧
  (s.phase = Phase.summary → s.round = TOTAL_ROUNDS) ∧
  (s.phase = Phase.done → s.restMs = 0)

theorem inv_init : Inv 0 initialSession := by
  simp [Inv, initialSession, startOK, phaseTickOK, lenOK, GOAL, TOTAL_ROUNDS]

theorem inv_mono {t t' : Nat} {s : Session} (h : Inv t s) (htt : t ≤ t') :
    Inv t' s := by
  obtain ⟨h1, h2, h3, h4, h5⟩ := h
  refine ⟨h1, h2, h3, ?_, h5⟩
  unfold startOK at *
  cases hs : s.startTime with
  | none => trivial
  | some t0 => rw [hs] at h4; omega

theorem tapFn_no_op {s : Session} (h : s.phase ≠ Phase.count) :
    tapFn s = s := by
  simp [tapFn, h]

theorem startFn_no_op {now : Nat} {s : Session} (h : s.phase ≠ Phase.ready) :
    startFn now s = s := by
  simp [startFn, h]

theorem stopFn_no_op {now : Nat} {s : Session} (h : s.phase ≠ Phase.timing) :
    stopFn now s = s := by
  simp [stopFn, h]

theorem inv_tapFn {t : Nat} {s : Session} (h : Inv t s) : Inv t (tapFn s) := by
  by_cases hp : s.phase = Phase.count
  · obtain ⟨ph, rd, ct, el, rm, rts, st, re, tk, iv, ni, al⟩ := s
    obtain ⟨h1, h2, h3, h4, h5, h6, h7, h8⟩ := h
    cases ph <;> simp_all
    cases tk
    · by_cases hg : GOAL ≤ ct + 1
      · have hmin : min GOAL (ct + 1) = GOAL := min_eq_left hg
        simp_all [tapFn, Inv, startOK, phaseTickOK, lenOK, hmin]
      · have hmin : min GOAL (ct + 1) = ct + 1 := min_eq_right (by omega)
        have hne : ¬(min GOAL (ct + 1) = GOAL) := by rw [hmin]; omega
        simp_all [tapFn, Inv, startOK, phaseTickOK, lenOK, hmin, hne]
    · exact absurd h5 (by simp [phaseTickOK])
  · rw [tapFn_no_op hp]; exact h

theorem inv_startFn {t : Nat} {s : Session} (h : Inv t s) :
    Inv t (startFn t s) := by
  by_cases hp : s.phase = Phase.ready
  · obtain ⟨ph, rd, ct, el, rm, rts, st, re, tk, iv, ni, al⟩ := s
    obtain ⟨h1, h2, h3, h4, h5, h6, h7, h8⟩ := h
    cases ph <;> simp_all
    cases tk
    · simp_all [startFn, startInterval, clearIntervalOnly, Inv, startOK,
        phaseTickOK, lenOK]
    · exact absurd h5 (by simp [phaseTickOK])
  · rw [startFn_no_op hp]; exact h

theorem inv_stopFn {t : Nat} {s : Session} (h : Inv t s) :
    Inv t (stopFn t s) := by
  by_cases hp : s.phase = Phase.timing
  · obtain ⟨ph, rd, ct, el, rm, rts, st, re, tk, iv, ni, al⟩ := s
    obtain ⟨h1, h2, h3, h4, h5, h6, h7, h8⟩ := h
    cases ph <;> simp_all
    cases tk with
    | none => exact absurd h5 (by simp [phaseTickOK])
    | some j =>
        simp only [phaseTickOK] at h5
        obtain ⟨hiv, hst⟩ := h5
        cases st with
        | none => exact absurd rfl hst
        | some t0 =>
            simp only [lenOK] at h6
            simp_all [stopFn, clearTicker, startInterval, setIdx, Inv,
              startOK, phaseTickOK, lenOK]
  · rw [stopFn_no_op hp]; exact h

theorem inv_nextRound {t : Nat} {s : Session} (h : Inv t s)
    (hp : s.phase = Phase.done) : Inv t (nextRound s) := by
  obtain ⟨ph, rd, ct, el, rm, rts, st, re, tk, iv, ni, al⟩ := s
  obtain ⟨h1, h2, h3, h4, h5, h6, h7, h8⟩ := h
  cases ph <;> simp_all
  cases tk
  · by_cases hr : TOTAL_ROUNDS ≤ rd
    · simp only [nextRound]
      rw [if_pos hr]
      simp_all [Inv, startOK, phaseTickOK, lenOK]
      omega
    · simp only [nextRound]
      rw [if_neg hr]
      simp_all [clearTicker, Inv, startOK, phaseTickOK, lenOK]
      omega
  · exact absurd h5 (by simp [phaseTickOK])

theorem inv_resetAll {t : Nat} {s : Session} (h : Inv t s) :
    Inv t (resetAll s) := by
  obtain ⟨ph, rd, ct, el, rm, rts, st, re, tk, iv, ni, al⟩ := s
  obtain ⟨h1, h2, h3, h4, h5, h6, h7, h8⟩ := h
  cases ph <;> cases tk <;>
    simp_all [resetAll, clearTicker, Inv, startOK, phaseTickOK, lenOK,
      GOAL, TOTAL_ROUNDS]

theorem inv_fireFn {t : Nat} {id : Nat} {s : Session} (h : Inv t s) :
    Inv t (fireFn id t s) := by
  obtain ⟨ph, rd, ct, el, rm, rts, st, re, tk, iv, ni, al⟩ := s
  obtain ⟨h1, h2, h3, h4, h5, h6, h7, h8⟩ := h
  cases ph <;> cases tk
  case timing.none => exact absurd h5 (by simp [phaseTickOK])
  case rest.none => exact absurd h5 (by simp [phaseTickOK])
  case count.some j => exact absurd h5 (by simp [phaseTickOK])
  case ready.some j => exact absurd h5 (by simp [phaseTickOK])
  case done.some j => exact absurd h5 (by simp [phaseTickOK])
  case summary.some j => exact absurd h5 (by simp [phaseTickOK])
  case count.none | ready.none | done.none | summary.none =>
    have hiv : iv = [] := by simpa [phaseTickOK] using h5
    subst hiv
    exact ⟨h1, h2, h3, h4, h5, h6, h7, h8⟩
  case timing.some j =>
      have h5' : iv = [(j, TickerKind.main)] ∧ ¬ st = none := by
        simpa [phaseTickOK] using h5
      obtain ⟨hiv, hst⟩ := h5'
      subst hiv
      cases st with
      | none => exact absurd rfl hst
      | some t0 =>
          by_cases hj : j = id <;>
            simp_all [fireFn, lookupKind, mainTickBody, Inv, startOK,
              phaseTickOK, lenOK]
  case rest.some j =>
      have h5' : iv = [(j, TickerKind.rest)] ∧ ¬ re = none := by
        simpa [phaseTickOK] using h5
      obtain ⟨hiv, hre⟩ := h5'
      subst hiv
      cases re with
      | none => exact absurd rfl hre
      | some te =>
          by_cases hj : j = id
          · by_cases hz : ((te : Int) - (t : Int)) ≤ 0
            · have hmax : max (0 : Int) ((te : Int) - (t : Int)) = 0 :=
                max_eq_left hz
              simp_all [fireFn, lookupKind, restTickBody, clearTicker, Inv,
                startOK, phaseTickOK, lenOK]
            · have hmax : max (0 : Int) ((te : Int) - (t : Int)) =
                  (te : Int) - (t : Int) :=
                max_eq_right (by omega)
              simp_all [fireFn, lookupKind, restTickBody, clearTicker, Inv,
                startOK, phaseTickOK, lenOK]
              rw [if_neg (show ¬ te ≤ t by omega)]
              refine ⟨h1, h2, h3, ?_, ?_, ?_, ?_, ?_⟩ <;> simp_all
          · simp_all [fireFn, lookupKind, Inv, startOK, phaseTickOK, lenOK]

theorem reach_inv {t : Nat} {s : Session} (h : Reach t s) : Inv t s := by
  induction h with
  | init => exact inv_init
  | step a t' hr htt hen ih =>
      have h2 := inv_mono ih htt
      cases a with
      | tap => exact inv_tapFn h2
      | start => exact inv_startFn h2
      | stop => exact inv_stopFn h2
      | advance =>
          exact inv_nextRound h2 (by simpa [enabledB] using hen)
      | reset => exact inv_resetAll h2
      | fire id => exact inv_fireFn h2

theorem clearTicker_phase (s : Session) : (clearTicker s).phase = s.phase := by
  cases h : s.ticker <;> simp [clearTicker, h]

theorem clearTicker_round (s : Session) : (clearTicker s).round = s.round := by
  cases h : s.ticker <;> simp [clearTicker, h]

theorem clearTicker_count (s : Session) : (clearTicker s).count = s.count := by
  cases h : s.ticker <;> simp [clearTicker, h]

theorem doAct_bounds (a : Act) (now : Nat) (s : Session)
    (h : s.count ≤ GOAL ∧ 1 ≤ s.round ∧ s.round ≤ TOTAL_ROUNDS) :
    (doAct a now s).count ≤ GOAL ∧ 1 ≤ (doAct a now s).round ∧
      (doAct a now s).round ≤ TOTAL_ROUNDS := by
  obtain ⟨h1, h2, h3⟩ := h
  cases a with
  | tap =>
      by_cases hp : s.phase = Phase.count
      · simp only [doAct, tapFn, if_pos hp]
        split <;> simp <;> omega
      · rw [show doAct Act.tap now s = tapFn s from rfl, tapFn_no_op hp]
        exact ⟨h1, h2, h3⟩
  | start =>
      by_cases hp : s.phase = Phase.ready
      · simp only [doAct, startFn, if_pos hp, startInterval]
        cases hk : s.ticker <;> simp [clearIntervalOnly, hk] <;> omega
      · rw [show doAct Act.start now s = startFn now s from rfl,
          startFn_no_op hp]
        exact ⟨h1, h2, h3⟩
  | stop =>
      by_cases hp : s.phase = Phase.timing
      · simp only [doAct, stopFn, if_pos hp, startInterval]
        cases hst : (clearTicker s).startTime <;>
          simp [clearTicker_count, clearTicker_round] <;>
          exact ⟨h1, h2, h3⟩
      · rw [show doAct Act.stop now s = stopFn now s from rfl,
          stopFn_no_op hp]
        exact ⟨h1, h2, h3⟩
  | advance =>
      simp only [doAct, nextRound]
      split
      · exact ⟨h1, h2, h3⟩
      · simp [clearTicker_count, clearTicker_round, GOAL]
        omega
  | reset =>
      simp only [doAct, resetAll]
      simp [clearTicker_count, clearTicker_round, GOAL, TOTAL_ROUNDS]
  | fire id =>
      simp only [doAct, fireFn]
      cases hk : lookupKind id s with
      | none => exact ⟨h1, h2, h3⟩
      | some k =>
          cases k with
          | main =>
              simp only [mainTickBody]
              cases hst : s.startTime <;> simp <;> exact ⟨h1, h2, h3⟩
          | rest =>
              simp only [restTickBody]
              split
              · cases hk2 : s.ticker <;> simp [clearTicker, hk2] <;>
                  exact ⟨h1, h2, h3⟩
              · exact ⟨h1, h2, h3⟩

/-- A session driven through the 40 taps and the start press at time 0. -/
def timingState : Session :=
  runActs (List.replicate GOAL (Act.tap, 0) ++ [(Act.start, 0)])
    initialSession

/-- A session driven on through the stop press at time 0, now resting. -/
def restState : Session :=
  runActs
    (List.replicate GOAL (Act.tap, 0) ++ [(Act.start, 0), (Act.stop, 0)])
    initialSession

/-- A session driven through all four rounds, in "done" of round 4. -/
def doneState : Session := runActs demoPrefix initialSession

/-- A session driven through all four rounds and onto the summary screen. -/
def summaryState : Session := runActs demoActs initialSession

theorem reach_timingState : Reach 0 timingState := by
  have h := reach_runActs (List.replicate GOAL (Act.tap, 0) ++ [(Act.start, 0)])
    0 initialSession Reach.init (by decide)
  rwa [show endTime 0 (List.replicate GOAL (Act.tap, 0) ++ [(Act.start, 0)]) = 0
    from by decide] at h

theorem reach_restState : Reach 0 restState := by
  have h := reach_runActs
    (List.replicate GOAL (Act.tap, 0) ++ [(Act.start, 0), (Act.stop, 0)])
    0 initialSession Reach.init (by decide)
  rwa [show endTime 0
      (List.replicate GOAL (Act.tap, 0) ++ [(Act.start, 0), (Act.stop, 0)]) = 0
    from by decide] at h

theorem reach_doneState : Reach (4 * REST_MS) doneState := by
  have h := reach_runActs demoPrefix 0 initialSession Reach.init (by decide)
  rwa [show endTime 0 demoPrefix = 4 * REST_MS from by decide] at h

theorem reach_summaryState : Reach (4 * REST_MS) summaryState := by
  have h := reach_runActs demoActs 0 initialSession Reach.init (by decide)
  rwa [show endTime 0 demoActs = 4 * REST_MS from by decide] at h

/-- C1 (counterexample): the claim that every action invoked outside its
valid phase leaves the state unchanged is false for advance: the initial
state is not in phase "done", yet invoking nextRound there changes the
state (it advances the round). -/
theorem advance_outside_done_not_no_op :
    initialSession.phase ≠ Phase.done ∧
      nextRound initialSession ≠ initialSession := by
  refine ⟨by decide, ?_⟩
  intro h
  have : (nextRound initialSession).round = initialSession.round :=
    congrArg Session.round h
  simp [nextRound, TOTAL_ROUNDS, initialSession, clearTicker] at this

/-- C1 (amended): tap, start and stop invoked outside their valid phase
(count, ready, timing respectively) are no-ops; advance has no phase guard
of its own and is kept out of other phases only by the UI, which renders
its button solely in phase "done" — in the event model that is exactly
when the advance event is deliverable. -/
theorem actions_no_op_outside_valid_phase (s : Session) (now : Nat) :
    (s.phase ≠ Phase.count → tapFn s = s) ∧
    (s.phase ≠ Phase.ready → startFn now s = s) ∧
    (s.phase ≠ Phase.timing → stopFn now s = s) ∧
    (enabledB Act.advance s = true ↔ s.phase = Phase.done) :=
  ⟨fun h => tapFn_no_op h, fun h => startFn_no_op h,
   fun h => stopFn_no_op h, by simp [enabledB]⟩

theorem actions_no_op_outside_valid_phase_witness :
    tapFn { initialSession with phase := Phase.done } =
        { initialSession with phase := Phase.done } ∧
      startFn 5 { initialSession with phase := Phase.done } =
        { initialSession with phase := Phase.done } ∧
      stopFn 5 { initialSession with phase := Phase.done } =
        { initialSession with phase := Phase.done } :=
  ⟨(actions_no_op_outside_valid_phase
      { initialSession with phase := Phase.done } 5).1 (by decide),
   (actions_no_op_outside_valid_phase
      { initialSession with phase := Phase.done } 5).2.1 (by decide),
   (actions_no_op_outside_valid_phase
      { initialSession with phase := Phase.done } 5).2.2.1 (by decide)⟩

/-- An arbitrary (not necessarily reachable) done state of the last round. -/
def doneLast : Session :=
  { initialSession with phase := Phase.done, round := 4 }

/-- C3: from phase "done" with round < TOTAL_ROUNDS, advance resets count
to 0, elapsedMs to 0, restMs to the full rest duration, increments round by
one and returns to phase "count"; with round = TOTAL_ROUNDS it transitions
to "summary". -/
theorem advance_from_done_spec (s : Session) (_hp : s.phase = Phase.done) :
    (s.round < TOTAL_ROUNDS →
      (nextRound s).phase = Phase.count ∧ (nextRound s).count = 0 ∧
      (nextRound s).elapsedMs = 0 ∧ (nextRound s).restMs = (REST_MS : Int) ∧
      (nextRound s).round = s.round + 1) ∧
    (s.round = TOTAL_ROUNDS → (nextRound s).phase = Phase.summary) := by
  constructor
  · intro hr
    unfold nextRound
    rw [if_neg (by omega)]
    exact ⟨rfl, rfl, rfl, rfl, by simp; omega⟩
  · intro hr
    unfold nextRound
    rw [if_pos (by omega)]

theorem advance_from_done_spec_witness :
    ((nextRound { initialSession with phase := Phase.done }).phase =
        Phase.count ∧
      (nextRound { initialSession with phase := Phase.done }).count = 0 ∧
      (nextRound { initialSession with phase := Phase.done }).elapsedMs = 0 ∧
      (nextRound { initialSession with phase := Phase.done }).restMs =
        (REST_MS : Int) ∧
      (nextRound { initialSession with phase := Phase.done }).round =
        { initialSession with phase := Phase.done }.round + 1) ∧
    (nextRound doneLast).phase = Phase.summary :=
  ⟨(advance_from_done_spec { initialSession with phase := Phase.done }
      rfl).1 (by decide),
   (advance_from_done_spec doneLast rfl).2 (by decide)⟩

/-- C4: in a reachable "done" state of the last round, advance goes to
"summary"; a further advance is a no-op (so the session never returns to
"count"), as are tap, start and stop, while reset leaves "summary" back to
"count". -/
theorem advance_after_last_round (t now : Nat) (s : Session)
    (_h : Reach t s) (_hd : s.phase = Phase.done)
    (hr : s.round = TOTAL_ROUNDS) :
    (nextRound s).phase = Phase.summary ∧
    nextRound (nextRound s) = nextRound s ∧
    tapFn (nextRound s) = nextRound s ∧
    startFn now (nextRound s) = nextRound s ∧
    stopFn now (nextRound s) = nextRound s ∧
    (resetAll (nextRound s)).phase = Phase.count := by
  have h1 : nextRound s = { s with phase := Phase.summary } := by
    unfold nextRound
    rw [if_pos (by omega)]
  rw [h1]
  refine ⟨rfl, ?_, tapFn_no_op (by simp), startFn_no_op (by simp),
    stopFn_no_op (by simp), rfl⟩
  unfold nextRound
  rw [if_pos (by simp; omega)]

theorem advance_after_last_round_witness :
    (nextRound doneState).phase = Phase.summary ∧
    nextRound (nextRound doneState) = nextRound doneState ∧
    tapFn (nextRound doneState) = nextRound doneState ∧
    startFn 99 (nextRound doneState) = nextRound doneState ∧
    stopFn 99 (nextRound doneState) = nextRound doneState ∧
    (resetAll (nextRound doneState)).phase = Phase.count :=
  advance_after_last_round (4 * REST_MS) 99 doneState reach_doneState
    (by decide) (by decide)

/-- C10: advance invoked with round = TOTAL_ROUNDS changes only the phase,
to "summary": count, elapsedMs, restMs, round, roundTimes, the stored
timestamps and every other field are left unchanged. -/
theorem advance_last_round_frame (s : Session)
    (hr : s.round = TOTAL_ROUNDS) :
    nextRound s = { s with phase := Phase.summary } := by
  unfold nextRound
  rw [if_pos (by omega)]

theorem advance_last_round_frame_witness :
    nextRound doneState = { doneState with phase := Phase.summary } :=
  advance_last_round_frame doneState (by decide)

/-- C5: in phase "count" with count < GOAL, tap increments count by exactly
one and never past GOAL; the tap that reaches GOAL beeps and moves to
"ready", after which a further tap changes nothing; a tap that stays below
GOAL keeps phase "count" and emits no alert. -/
theorem tap_increments_to_goal (s : Session) (hp : s.phase = Phase.count)
    (hc : s.count < GOAL) :
    (tapFn s).count = s.count + 1 ∧ (tapFn s).count ≤ GOAL ∧
    (s.count + 1 = GOAL →
      (tapFn s).phase = Phase.ready ∧ (tapFn s).alerts = s.alerts + 1 ∧
      tapFn (tapFn s) = tapFn s) ∧
    (s.count + 1 < GOAL →
      (tapFn s).phase = Phase.count ∧ (tapFn s).alerts = s.alerts) := by
  have hmin : min GOAL (s.count + 1) = s.count + 1 := min_eq_right (by omega)
  by_cases hg : s.count + 1 = GOAL
  · have htap : tapFn s =
        { s with
          count := s.count + 1, phase := Phase.ready,
          alerts := s.alerts + 1 } := by
      unfold tapFn
      rw [if_pos hp]
      simp only [hmin]
      rw [if_pos hg]
    rw [htap]
    exact ⟨rfl, by simp; omega,
      fun _ => ⟨rfl, rfl, tapFn_no_op (by simp)⟩,
      fun hlt => absurd hg (by omega)⟩
  · have htap : tapFn s = { s with count := s.count + 1 } := by
      unfold tapFn
      rw [if_pos hp]
      simp only [hmin]
      rw [if_neg hg]
    rw [htap]
    exact ⟨rfl, by simp; omega, fun hgg => absurd hgg hg,
      fun _ => ⟨hp, rfl⟩⟩

/-- A count-phase state one tap short of the goal. -/
def count39 : Session := { initialSession with count := 39 }

theorem tap_increments_to_goal_witness :
    ((tapFn count39).count = count39.count + 1 ∧
      (tapFn count39).phase = Phase.ready ∧
      tapFn (tapFn count39) = tapFn count39) ∧
    ((tapFn initialSession).count = initialSession.count + 1 ∧
      (tapFn initialSession).phase = Phase.count) :=
  ⟨⟨(tap_increments_to_goal count39 rfl (by decide)).1,
    ((tap_increments_to_goal count39 rfl (by decide)).2.2.1 (by decide)).1,
    ((tap_increments_to_goal count39 rfl (by decide)).2.2.1 (by decide)).2.2⟩,
   ⟨(tap_increments_to_goal initialSession rfl (by decide)).1,
    ((tap_increments_to_goal initialSession rfl
        (by decide)).2.2.2 (by decide)).1⟩⟩

/-- C2: in a reachable "timing" state, stop at a time now freezes an
elapsed time ≥ 0, appends exactly that one entry to roundTimes — so after
the k-th round's stop roundTimes has exactly k entries — sets the rest
deadline 15 seconds ahead, resets restMs to the full 15 seconds, and
transitions to "rest". -/
theorem stop_records_round_time (t now : Nat) (s : Session) (h : Reach t s)
    (hp : s.phase = Phase.timing) (hn : t ≤ now) :
    0 ≤ (stopFn now s).elapsedMs ∧
    (stopFn now s).roundTimes = s.roundTimes ++ [(stopFn now s).elapsedMs] ∧
    (stopFn now s).roundTimes.length = s.round ∧
    (stopFn now s).restEnd = some (now + REST_MS) ∧
    (stopFn now s).restMs = (REST_MS : Int) ∧
    (stopFn now s).phase = Phase.rest := by
  have hinv := reach_inv h
  obtain ⟨ph, rd, ct, el, rm, rts, st, re, tk, iv, ni, al⟩ := s
  obtain ⟨h1, h2, h3, h4, h5, h6, h7, h8⟩ := hinv
  have hph : ph = Phase.timing := hp
  subst hph
  cases tk with
  | none => exact absurd h5 (by simp [phaseTickOK])
  | some j =>
      have h5' : iv = [(j, TickerKind.main)] ∧ ¬ st = none := by
        simpa [phaseTickOK] using h5
      cases st with
      | none => exact absurd rfl h5'.2
      | some t0 =>
          have ht0 : t0 ≤ t := h4
          have hlen : rts.length = rd - 1 := h6
          have hrd : 1 ≤ rd := h2
          have hs : stopFn now
              ⟨Phase.timing, rd, ct, el, rm, rts, some t0, re, some j, iv,
                ni, al⟩ =
              ⟨Phase.rest, rd, ct, (now : Int) - (t0 : Int), (REST_MS : Int),
                rts ++ [(now : Int) - (t0 : Int)], some t0,
                some (now + REST_MS), some ni,
                iv.filter (fun p => p.1 ≠ j) ++ [(ni, TickerKind.rest)],
                ni + 1, al⟩ := by
            simp [stopFn, clearTicker, startInterval, setIdx, hlen]
          rw [hs]
          refine ⟨by simp; omega, rfl, ?_, rfl, rfl, rfl⟩
          simp
          omega

theorem stop_records_round_time_witness :
    0 ≤ (stopFn 7 timingState).elapsedMs ∧
    (stopFn 7 timingState).roundTimes =
      timingState.roundTimes ++ [(stopFn 7 timingState).elapsedMs] ∧
    (stopFn 7 timingState).roundTimes.length = timingState.round ∧
    (stopFn 7 timingState).restEnd = some (7 + REST_MS) ∧
    (stopFn 7 timingState).restMs = (REST_MS : Int) ∧
    (stopFn 7 timingState).phase = Phase.rest :=
  stop_records_round_time 0 7 timingState reach_timingState (by decide)
    (by decide)

/-- C6: from any reachable state, in any phase, reset cancels the live
interval and produces the state with phase "count", round 1, count 0,
elapsedMs 0, restMs back at the full rest duration, empty roundTimes and
cleared timestamp refs; only the fresh-id counter and the count of alerts
already emitted carry over. -/
theorem reset_clears_session (t : Nat) (s : Session) (h : Reach t s) :
    resetAll s =
      { phase := Phase.count, round := 1, count := 0, elapsedMs := 0,
        restMs := (REST_MS : Int), roundTimes := [], startTime := none,
        restEnd := none, ticker := none, intervals := [],
        nextId := s.nextId, alerts := s.alerts } := by
  have hinv := reach_inv h
  obtain ⟨ph, rd, ct, el, rm, rts, st, re, tk, iv, ni, al⟩ := s
  obtain ⟨h1, h2, h3, h4, h5, h6, h7, h8⟩ := hinv
  cases tk with
  | none =>
      have hiv : iv = [] := by
        cases ph <;> simpa [phaseTickOK] using h5
      subst hiv
      simp [resetAll, clearTicker]
  | some j =>
      cases ph
      case count => exact absurd h5 (by simp [phaseTickOK])
      case ready => exact absurd h5 (by simp [phaseTickOK])
      case done => exact absurd h5 (by simp [phaseTickOK])
      case summary => exact absurd h5 (by simp [phaseTickOK])
      case timing =>
        have h5' : iv = [(j, TickerKind.main)] ∧ ¬ st = none := by
          simpa [phaseTickOK] using h5
        obtain ⟨hiv, h9⟩ := h5'
        subst hiv
        simp [resetAll, clearTicker]
      case rest =>
        have h5' : iv = [(j, TickerKind.rest)] ∧ ¬ re = none := by
          simpa [phaseTickOK] using h5
        obtain ⟨hiv, h9⟩ := h5'
        subst hiv
        simp [resetAll, clearTicker]

theorem reset_clears_session_witness :
    resetAll summaryState =
      { phase := Phase.count, round := 1, count := 0, elapsedMs := 0,
        restMs := (REST_MS : Int), roundTimes := [], startTime := none,
        restEnd := none, ticker := none, intervals := [],
        nextId := summaryState.nextId, alerts := summaryState.alerts } :=
  reset_clears_session (4 * REST_MS) summaryState reach_summaryState

/-- C7: in every reachable state, count lies in [0, GOAL] and round in
[1, TOTAL_ROUNDS], and every operation applied there preserves these
bounds. -/
theorem reachable_bounds (t now : Nat) (s : Session) (a : Act)
    (h : Reach t s) :
    (0 ≤ s.count ∧ s.count ≤ GOAL ∧ 1 ≤ s.round ∧
      s.round ≤ TOTAL_ROUNDS) ∧
    ((doAct a now s).count ≤ GOAL ∧ 1 ≤ (doAct a now s).round ∧
      (doAct a now s).round ≤ TOTAL_ROUNDS) := by
  have hinv := reach_inv h
  have hb := doAct_bounds a now s ⟨hinv.1, hinv.2.1, hinv.2.2.1⟩
  exact ⟨⟨Nat.zero_le _, hinv.1, hinv.2.1, hinv.2.2.1⟩, hb⟩

theorem reachable_bounds_witness :
    (0 ≤ initialSession.count ∧ initialSession.count ≤ GOAL ∧
      1 ≤ initialSession.round ∧ initialSession.round ≤ TOTAL_ROUNDS) ∧
    ((doAct Act.tap 0 initialSession).count ≤ GOAL ∧
      1 ≤ (doAct Act.tap 0 initialSession).round ∧
      (doAct Act.tap 0 initialSession).round ≤ TOTAL_ROUNDS) :=
  reachable_bounds 0 0 initialSession Act.tap Reach.init

/-- C8: in a reachable "rest" state, the countdown tick computes the
remaining time clamped at 0; the tick at or past the deadline sets restMs
to exactly 0, emits the alert and transitions to "done", while an earlier
tick stays in "rest" with the positive remaining time — so the session
never moves from "rest" to "done" with a nonzero restMs. -/
theorem rest_reaches_zero_before_done (t now id : Nat) (s : Session)
    (h : Reach t s) (hp : s.phase = Phase.rest)
    (hid : s.ticker = some id) :
    ∃ te, s.restEnd = some te ∧
      (te ≤ now →
        (fireFn id now s).phase = Phase.done ∧
        (fireFn id now s).restMs = 0 ∧
        (fireFn id now s).alerts = s.alerts + 1) ∧
      (now < te →
        (fireFn id now s).phase = Phase.rest ∧
        (fireFn id now s).restMs = (te : Int) - (now : Int)) := by
  have hinv := reach_inv h
  obtain ⟨ph, rd, ct, el, rm, rts, st, re, tk, iv, ni, al⟩ := s
  obtain ⟨h1, h2, h3, h4, h5, h6, h7, h8⟩ := hinv
  have hph : ph = Phase.rest := hp
  subst hph
  have htk : tk = some id := hid
  subst htk
  have h5' : iv = [(id, TickerKind.rest)] ∧ ¬ re = none := by
    simpa [phaseTickOK] using h5
  obtain ⟨hiv, hre⟩ := h5'
  subst hiv
  cases re with
  | none => exact absurd rfl hre
  | some te =>
      refine ⟨te, rfl, ?_, ?_⟩
      · intro hle
        have hmax : max (0 : Int) ((te : Int) - (now : Int)) = 0 :=
          max_eq_left (by omega)
        simp [fireFn, lookupKind, restTickBody, clearTicker, hmax]
      · intro hlt
        have hmax : max (0 : Int) ((te : Int) - (now : Int)) =
            (te : Int) - (now : Int) :=
          max_eq_right (by omega)
        have hnot : ¬ ((te : Int) - (now : Int) ≤ 0) := by omega
        simp [fireFn, lookupKind, restTickBody, hmax, hnot]

theorem rest_reaches_zero_before_done_witness :
    ∃ te, restState.restEnd = some te ∧
      (te ≤ REST_MS →
        (fireFn 1 REST_MS restState).phase = Phase.done ∧
        (fireFn 1 REST_MS restState).restMs = 0 ∧
        (fireFn 1 REST_MS restState).alerts = restState.alerts + 1) ∧
      (REST_MS < te →
        (fireFn 1 REST_MS restState).phase = Phase.rest ∧
        (fireFn 1 REST_MS restState).restMs =
          (te : Int) - (REST_MS : Int)) :=
  rest_reaches_zero_before_done 0 REST_MS 1 restState reach_restState
    (by decide) (by decide)

/-- C9 (counterexample): the claim that every reachable state has exactly
one active ticking timer is false: the initial state is reachable and has
no live interval at all. -/
theorem not_exactly_one_timer_at_init :
    Reach 0 initialSession ∧ ¬ initialSession.intervals.length = 1 :=
  ⟨Reach.init, by decide⟩

/-- C9 (amended): in every reachable state at most one periodic timer is
live — exactly one precisely in the phases "timing" and "rest" — because
every operation that starts an interval first clears the stored one. -/
theorem at_most_one_timer (t : Nat) (s : Session) (h : Reach t s) :
    s.intervals.length ≤ 1 ∧
      (s.intervals.length = 1 ↔
        (s.phase = Phase.timing ∨ s.phase = Phase.rest)) := by
  have hinv := reach_inv h
  obtain ⟨ph, rd, ct, el, rm, rts, st, re, tk, iv, ni, al⟩ := s
  obtain ⟨h1, h2, h3, h4, h5, h6, h7, h8⟩ := hinv
  cases ph <;> cases tk
  case timing.none => exact absurd h5 (by simp [phaseTickOK])
  case rest.none => exact absurd h5 (by simp [phaseTickOK])
  case count.some j => exact absurd h5 (by simp [phaseTickOK])
  case ready.some j => exact absurd h5 (by simp [phaseTickOK])
  case done.some j => exact absurd h5 (by simp [phaseTickOK])
  case summary.some j => exact absurd h5 (by simp [phaseTickOK])
  case count.none | ready.none | done.none | summary.none =>
    have hiv : iv = [] := by simpa [phaseTickOK] using h5
    subst hiv
    simp
  case timing.some j =>
    have hiv : iv = [(j, TickerKind.main)] :=
      (show iv = [(j, TickerKind.main)] ∧ ¬ st = none by
        simpa [phaseTickOK] using h5).1
    subst hiv
    simp
  case rest.some j =>
    have hiv : iv = [(j, TickerKind.rest)] :=
      (show iv = [(j, TickerKind.rest)] ∧ ¬ re = none by
        simpa [phaseTickOK] using h5).1
    subst hiv
    simp

theorem at_most_one_timer_witness :
    timingState.intervals.length ≤ 1 ∧
      (timingState.intervals.length = 1 ↔
        (timingState.phase = Phase.timing ∨
          timingState.phase = Phase.rest)) :=
  at_most_one_timer 0 timingState reach_timingState

end CounterTimer

